import Mathlib

/-!
Verification of the Solrise incremental submission-synchronization and
derived-analytics engine, shallowly embedded from `src/context/AppContext.tsx`
and `src/components/RatingSelector.tsx`.

Modelling conventions:
* JavaScript values that may be `undefined` are embedded as `Option`.
* `Number(x)` applied to a missing value yields `NaN`; we embed JS numbers
  that can be `NaN` as the inductive `JSNum`.
* JS objects used as string-keyed maps are embedded as association lists
  with insertion-ordered keys; assignment to an existing key updates in
  place, assignment to a fresh key appends (this is exactly the enumeration
  order JS guarantees for string keys).
* Local calendar dates are embedded as day numbers (`Int`); the browser's
  date formatting/parsing round trip `timestamp -> "YYYY-MM-DD" -> Date` is
  embedded as an abstract `localDay : Int -> Int` map supplied by the
  environment, and "today" as a day number.
* `localStorage` is embedded as an insertion-ordered association list plus a
  byte capacity; a raw write that would exceed the capacity raises the
  quota-exceeded condition, embedded as `Except`.
-/

namespace Solrise

/-! ## JS value helpers -/

/-- A JS number that may be `NaN` (the result of `Number(undefined)`). -/
inductive JSNum where
  | nan
  | int (n : Int)
deriving Repr, DecidableEq

/-- `String(x)` on a `JSNum`: `String(NaN)` is `"NaN"`. -/
def JSNum.toStr : JSNum → String
  | .nan => "NaN"
  | .int n => toString n

/-- `x >= 10000` on a `JSNum`: any comparison with `NaN` is false. -/
def JSNum.ge10000 : JSNum → Bool
  | .nan => false
  | .int n => decide (10000 ≤ n)

/-- `Number(x)` where `x : number | undefined`. -/
def numOfOpt : Option Int → JSNum
  | none => .nan
  | some n => .int n

/-- A JS value passed as the `contestId` argument of `makeKey`
(`number | string | undefined` in the source). -/
inductive JSVal where
  | undef
  | num (x : JSNum)
  | str (s : String)
deriving Repr, DecidableEq

/-- `String(v ?? "")`. -/
def jsValToStr : JSVal → String
  | .undef => ""
  | .num x => x.toStr
  | .str s => s

/-- Embed an optional integer `contestId` as the raw JS value
(`undefined` when absent). -/
def jsOfOptInt : Option Int → JSVal
  | none => .undef
  | some n => .num (.int n)

/-! ## Data model -/

/-- A catalog item (Codeforces problem) as stored in `problems`. -/
structure Problem where
  contestId : Option Int
  index : String
  name : String
  tags : List String
  solvedCount : Nat
deriving Repr, DecidableEq

/-- The `problem` object attached to a raw submission; every field may be
missing. -/
structure SubProblem where
  contestId : Option Int
  index : Option String
  name : Option String
  tags : Option (List String)
deriving Repr, DecidableEq

/-- A raw activity record (Codeforces submission). -/
structure Submission where
  id : Int
  problem : Option SubProblem
  verdict : Option String
  creationTimeSeconds : Option Int
deriving Repr, DecidableEq

/-- Derived per-key attempt information (`AttemptInfo` in the source). -/
structure AttemptInfo where
  key : String
  contestId : JSNum
  index : String
  name : Option String
  tags : List String
  attempts : Nat
  lastVerdict : Option String
  lastTime : Int
  link : String
deriving Repr, DecidableEq

/-! ## Key construction (source lines 69-76) -/

/-- `toUpperCase()` for one character: ASCII lowercase maps to uppercase,
everything else is unchanged (the JS behavior on the characters occurring
in catalog indices). -/
def charUpper (c : Char) : Char :=
  if 97 ≤ c.toNat ∧ c.toNat ≤ 122 then Char.ofNat (c.toNat - 32) else c

/-- `toUpperCase()`. -/
def strUpper (s : String) : String := String.mk (s.data.map charUpper)

/-- The whitespace stripped by `trim()` (space and the ASCII control
whitespace range). -/
def isJsSpace (c : Char) : Bool :=
  decide (c.toNat = 32 ∨ (9 ≤ c.toNat ∧ c.toNat ≤ 13))

/-- `trim()`. -/
def strTrim (s : String) : String :=
  String.mk (((s.data.dropWhile isJsSpace).reverse.dropWhile isJsSpace).reverse)

/-- `normalizeIndex`: `String(idx ?? "").toUpperCase().trim()`. -/
def normalizeIndex (idx : Option String) : String :=
  strTrim (strUpper (idx.getD ""))

/-- `makeKey`: `` `${String(contestId ?? "")}-${normalizeIndex(index)}` ``. -/
def makeKey (contestId : JSVal) (index : Option String) : String :=
  jsValToStr contestId ++ "-" ++ normalizeIndex index

/-! ## Association-list operations mirroring JS object assignment -/

/-- Bump a counter in a JS object used as a map:
`map[k] = (map[k] || 0) + 1`. -/
def assocBump {α : Type} [BEq α] (m : List (α × Nat)) (k : α) : List (α × Nat) :=
  match m.lookup k with
  | some v => m.map (fun kv => if kv.1 == k then (kv.1, v + 1) else kv)
  | none => m ++ [(k, 1)]

/-- JS object assignment `map[k] = v`: update in place when present,
append otherwise. -/
def assocSet {α β : Type} [BEq α] (m : List (α × β)) (k : α) (v : β) : List (α × β) :=
  if (m.lookup k).isSome then
    m.map (fun kv => if kv.1 == k then (kv.1, v) else kv)
  else m ++ [(k, v)]

/-! ## Derived State Engine (`processSubmissions`, source lines 225-298) -/

/-- `s.problem || {}`. -/
def subProblemOf (s : Submission) : SubProblem :=
  s.problem.getD ⟨none, none, none, none⟩

/-- The contest id as computed in the loop body: `Number(p.contestId)`. -/
def subContestId (s : Submission) : JSNum :=
  numOfOpt (subProblemOf s).contestId

/-- The normalized index of a submission's problem. -/
def subIndex (s : Submission) : String :=
  normalizeIndex (subProblemOf s).index

/-- The canonical key assigned to a submission:
`makeKey(Number(p.contestId), normalizeIndex(p.index))`. -/
def subKey (s : Submission) : String :=
  makeKey (.num (subContestId s)) (some (subIndex s))

/-- `s.creationTimeSeconds || 0`. -/
def subTime (s : Submission) : Int :=
  s.creationTimeSeconds.getD 0

/-- The problem link built for a fresh `AttemptInfo`. -/
def subLink (contestId : JSNum) (idx : String) : String :=
  if contestId.ge10000 then
    "https://codeforces.com/gym/" ++ contestId.toStr ++ "/problem/" ++ idx
  else
    "https://codeforces.com/contest/" ++ contestId.toStr ++ "/problem/" ++ idx

/-- JS `Set.add`: insertion-ordered, no duplicates. -/
def setAdd (s : List String) (x : String) : List String :=
  if s.contains x then s else s ++ [x]

/-- Accumulator state of the `for (const s of subs)` loop. -/
structure ProcState where
  solved : List String
  attempted : List (String × AttemptInfo)
  daily : List (Int × Nat)
deriving Repr, DecidableEq

/-- The `AttemptInfo` created when a key is seen for the first time
(source lines 245-258, with the unconditional `attempts++` of line 260
already applied to the initial `attempts: 0`). -/
def freshInfo (s : Submission) : AttemptInfo :=
  { key := subKey s
    contestId := subContestId s
    index := subIndex s
    name := (subProblemOf s).name
    tags := (subProblemOf s).tags.getD []
    attempts := 1
    lastVerdict := s.verdict
    lastTime := subTime s
    link := subLink (subContestId s) (subIndex s) }

/-- `attempted[key].attempts++` on an existing key: bump the attempt count
of the entry stored at `key`. -/
def bumpInfo (key : String) (l : List (String × AttemptInfo)) :
    List (String × AttemptInfo) :=
  l.map (fun kv =>
    if kv.1 == key then (kv.1, { kv.2 with attempts := kv.2.attempts + 1 }) else kv)

/-- One iteration of the submission-processing loop (source lines 230-261).
`localDay` embeds the browser's timestamp-to-local-calendar-date map. -/
def stepSub (localDay : Int → Int) (st : ProcState) (s : Submission) : ProcState :=
  let key := subKey s
  let submissionTime := subTime s
  let st :=
    if s.verdict = some "OK" then
      { st with
        solved := setAdd st.solved key
        daily := assocBump st.daily (localDay submissionTime) }
    else st
  match st.attempted.lookup key with
  | none => { st with attempted := st.attempted ++ [(key, freshInfo s)] }
  | some _ => { st with attempted := bumpInfo key st.attempted }

/-- Active dates of `dailyCounts`:
`Object.keys(dailyCounts).filter(date => dailyCounts[date] > 0)`
(keys of a JS object are unique, so filtering pairs is equivalent). -/
def activeDays (dc : List (Int × Nat)) : List Int :=
  (dc.filter (fun p => 0 < p.2)).map Prod.fst

/-- Insert into a descending-sorted list. -/
def insertDesc (x : Int) : List Int → List Int
  | [] => [x]
  | y :: ys => if y ≤ x then x :: y :: ys else y :: insertDesc x ys

/-- Sort descending (`Object.keys(...).sort().reverse()` on ISO dates). -/
def sortDesc : List Int → List Int
  | [] => []
  | x :: xs => insertDesc x (sortDesc xs)

/-- The streak-walking loop (source lines 279-292): starting from the cursor
(`today`), accept the next most-recent active day when it is 0 or 1 days
earlier, else stop. -/
def streakWalk (cur : Int) : List Int → Nat
  | [] => 0
  | d :: rest =>
      let diff := cur - d
      if diff = 0 ∨ diff = 1 then 1 + streakWalk d rest else 0

/-- The solving-streak computation (source lines 267-293), a pure function of
`dailyCounts` and "today". -/
def computeStreak (dc : List (Int × Nat)) (today : Int) : Nat :=
  streakWalk today (sortDesc (activeDays dc))

/-- The observable output of `processSubmissions`. -/
structure DerivedState where
  solvedSet : List String
  attempted : List (String × AttemptInfo)
  attemptedUnsolved : List AttemptInfo
  dailyCounts : List (Int × Nat)
  streak : Nat
deriving Repr, DecidableEq

/-- `processSubmissions` (source lines 225-298): fold the loop body over the
submission list, filter attempted-but-unsolved, and compute the streak. -/
def processSubmissions (localDay : Int → Int) (today : Int)
    (subs : List Submission) : DerivedState :=
  let st := subs.foldl (stepSub localDay) ⟨[], [], []⟩
  let attemptedUnsolved :=
    (st.attempted.map Prod.snd).filter (fun a => !(st.solved.contains a.key))
  { solvedSet := st.solved
    attempted := st.attempted
    attemptedUnsolved := attemptedUnsolved
    dailyCounts := st.daily
    streak := computeStreak st.daily today }

/-! ## Submission Ledger merge (source lines 349-365) -/

/-- The ledger merge performed by `refreshUserSubmissions`: drop incoming
records whose `id` is already present, then prepend the remainder. -/
def mergeSubs (cur newSubs : List Submission) : List Submission :=
  let existingIds := cur.map Submission.id
  let uniqueNew := newSubs.filter (fun s => !(existingIds.contains s.id))
  if 0 < uniqueNew.length then uniqueNew ++ cur else cur

/-! ## Handle validation (source lines 339, 380, 420, and
`isValidCodeforcesHandle` in RatingSelector.tsx lines 169-189) -/

/-- Membership in the regex character class `[a-zA-Z0-9_-]`, by
codepoint ranges. -/
def isHandleChar (c : Char) : Bool :=
  decide ((97 ≤ c.toNat ∧ c.toNat ≤ 122) ∨ (65 ≤ c.toNat ∧ c.toNat ≤ 90) ∨
          (48 ≤ c.toNat ∧ c.toNat ≤ 57) ∨ c.toNat = 95 ∨ c.toNat = 45)

/-- The test `/^[a-zA-Z0-9_-]{3,24}$/.test(s)`. -/
def handleRegexTest (s : String) : Bool :=
  decide (3 ≤ s.length ∧ s.length ≤ 24) && s.data.all isHandleChar

/-- Per-character NFKC compatibility mapping, embedding the platform's
`String.prototype.normalize("NFKC")` for the characters occurring in this
development. NFKC acts character-by-character on strings without combining
sequences; the superscript digits decompose to plain digits, control
characters and all characters of the handle class are NFKC-invariant. -/
def nfkcChar (c : Char) : List Char :=
  if c = '¹' then ['1']
  else if c = '²' then ['2']
  else if c = '³' then ['3']
  else [c]

/-- `s.normalize("NFKC")` under the embedding above. -/
def nfkc (s : String) : String :=
  String.mk ((s.data.map nfkcChar).flatten)

/-- `isValidCodeforcesHandle` (RatingSelector.tsx lines 169-189): length is
checked both before and after normalization, then the character class. -/
def isValidCodeforcesHandle (handle : String) : Bool :=
  if handle.length < 3 || 24 < handle.length then false
  else
    let normalized := nfkc handle
    if normalized.length < 3 || 24 < normalized.length then false
    else normalized.data.all isHandleChar

/-! ## Catalog Cache (`fetchProblems`, source lines 119-222) -/

/-- What `localStorage.getItem("cf_all_problems")` holds, seen through
`JSON.parse` and the array validation: the entry may fail to parse, parse to
a non-array, or parse to an array of problems. -/
inductive CachedPayload where
  | corrupt
  | nonArray
  | arr (items : List Problem)
deriving Repr, DecidableEq

/-- The two catalog cache keys (`cf_all_problems`, `cf_all_problems_ts`). -/
structure CacheState where
  payload : Option CachedPayload
  ts : Option Int
deriving Repr, DecidableEq

/-- One entry of `data.result.problemStatistics`. -/
structure Stat where
  contestId : Option Int
  index : Option String
  solvedCount : Nat
deriving Repr, DecidableEq

/-- One entry of the `problems` array: a null entry makes the property
access `p.contestId` at line 194 throw a TypeError; other entries carry a
problem object. -/
inductive ProbEntry where
  | nullEntry
  | obj (p : Problem)
deriving Repr, DecidableEq

/-- The `problemStatistics` field of `data.result`: absent or falsy (the
truthiness guard at line 186 skips it), truthy but not iterable (the
`for...of` at line 187 throws a TypeError), or an array of entries. -/
inductive StatsField where
  | absent
  | nonIterable
  | arr (stats : List Stat)
deriving Repr, DecidableEq

/-- `data.result` when present: `problems` is `some` exactly when the field
is an array (`Array.isArray` at line 81), its entries possibly null;
`problemStatistics` may be absent, truthy-non-iterable, or an array. -/
structure ApiResult where
  problems : Option (List ProbEntry)
  problemStatistics : StatsField
deriving Repr, DecidableEq

/-- The JSON body of a `/api/problems` response: `null` or an object with an
optional `result` field. -/
inductive JsonData where
  | nullData
  | obj (result : Option ApiResult)
deriving Repr, DecidableEq

/-- Outcome of one fetch attempt: network/HTTP failure, or a JSON body. -/
inductive AttemptOutcome where
  | fail
  | ok (data : JsonData)
deriving Repr, DecidableEq

/-- `flattenProblemsResponse` (source lines 79-84). -/
def flattenProblemsResponse : JsonData → List ProbEntry
  | .nullData => []
  | .obj none => []
  | .obj (some r) => r.problems.getD []

/-- `computeTagCounts` (source lines 86-91). -/
def computeTagCounts (l : List Problem) : List (String × Nat) :=
  l.foldl (fun m p => p.tags.foldl assocBump m) []

/-- `data.result?.problemStatistics`: absent `result` gives `undefined`,
which is falsy. -/
def statsFieldOf : Option ApiResult → StatsField
  | none => .absent
  | some r => r.problemStatistics

/-- The `statsMap` construction (source lines 185-190): skipped when the
field is falsy, a thrown TypeError when it is truthy but not iterable,
otherwise the fold of JS object assignments. -/
def statsMapOfE : StatsField → Except Unit (List (String × Nat))
  | .absent => .ok []
  | .nonIterable => .error ()
  | .arr stats =>
      .ok (stats.foldl
        (fun m st => assocSet m (makeKey (jsOfOptInt st.contestId) st.index) st.solvedCount)
        [])

/-- The `mergedProblems` map (source lines 192-195): a null entry throws
(a TypeError on the `p.contestId` access), an object entry gets its
`solvedCount` from the stats map. -/
def mergeEntries (statsMap : List (String × Nat)) :
    List ProbEntry → Except Unit (List Problem)
  | [] => .ok []
  | .nullEntry :: _ => .error ()
  | .obj p :: rest =>
      match mergeEntries statsMap rest with
      | .error e => .error e
      | .ok l =>
          .ok ({ p with solvedCount :=
              (statsMap.lookup (makeKey (jsOfOptInt p.contestId) (some p.index))).getD 0 } :: l)

/-- Lines 185-195 as one fallible computation inside the `try` block:
build the stats map, then the merged problem list; a TypeError from either
step propagates to the outer `catch`. -/
def buildCatalog (r : Option ApiResult) : Except Unit (List Problem) :=
  match statsMapOfE (statsFieldOf r) with
  | .error e => .error e
  | .ok statsMap => mergeEntries statsMap (flattenProblemsResponse (.obj r))

/-- The retry loop (source lines 157-177): run attempts starting at index
`attempt` with `fuel` attempts remaining; return the first successful JSON
body (if any) and the number of network calls made. -/
def fetchAttempts (resp : Nat → AttemptOutcome) (attempt : Nat) : Nat → Option JsonData × Nat
  | 0 => (none, 0)
  | fuel + 1 =>
      match resp attempt with
      | .ok d => (some d, 1)
      | .fail =>
          let r := fetchAttempts resp (attempt + 1) fuel
          (r.1, r.2 + 1)

/-- `PROBLEMS_CACHE_TTL_MS = 6 * 60 * 60 * 1000`. -/
def PROBLEMS_CACHE_TTL_MS : Int := 6 * 60 * 60 * 1000

/-- The catalog-side component state: cache keys, the problem list and tag
counts, the error flag, the loading flag, the fetched-once flag, and a
counter of catalog-service network calls made so far. -/
structure PState where
  cache : CacheState
  problems : List Problem
  tagCounts : List (String × Nat)
  errorProblems : Option String
  loadingProblems : Bool
  hasFetched : Bool
  networkCalls : Nat
deriving Repr, DecidableEq

/-- `fetchProblems` (source lines 121-222) for one (non-concurrent)
invocation, with `now = Date.now()` and `resp` the catalog service's answer
to each attempt. The single-flight promise ref deduplicates concurrent
calls and is not part of this sequential embedding. -/
def fetchProblems (now : Int) (resp : Nat → AttemptOutcome) (st : PState) : PState :=
  if st.hasFetched then st
  else
    let st1 := { st with loadingProblems := true, errorProblems := none }
    let fresh : Bool :=
      match st1.cache.ts with
      | some ts => decide (now - ts < PROBLEMS_CACHE_TTL_MS)
      | none => false
    let hit : Option (List Problem) :=
      match st1.cache.payload, fresh with
      | some (.arr items), true => if 0 < items.length then some items else none
      | _, _ => none
    match hit with
    | some items =>
        { st1 with
          problems := items
          tagCounts := computeTagCounts items
          loadingProblems := false }
    | none =>
        let st2 :=
          match st1.cache.payload, fresh with
          | some .corrupt, true => { st1 with cache := ⟨none, none⟩ }
          | _, _ => st1
        let fetched := fetchAttempts resp 0 3
        let st3 := { st2 with networkCalls := st2.networkCalls + fetched.2 }
        match fetched.1 with
        | none =>
            { st3 with
              errorProblems := some "Failed to fetch problems"
              loadingProblems := false }
        | some .nullData =>
            { st3 with
              errorProblems := some "Failed to fetch problems"
              loadingProblems := false }
        | some (.obj r) =>
            match buildCatalog r with
            | .error _ =>
                { st3 with
                  errorProblems := some "Failed to fetch problems"
                  loadingProblems := false }
            | .ok merged =>
                { st3 with
                  problems := merged
                  tagCounts := computeTagCounts merged
                  hasFetched := true
                  cache := ⟨some (.arr merged), some now⟩
                  loadingProblems := false }

/-! ## User session flow (source lines 300-448) -/

/-- `CFUserInfo`. -/
structure UserInfo where
  handle : String
  rating : Int
  maxRating : Int
  rank : String
  titlePhoto : String
deriving Repr, DecidableEq

/-- The `/api/user-dashboard` response: HTTP failure, or a JSON body with
optional `userInfo` and `submissions` fields. -/
inductive UserResp where
  | httpFail
  | ok (userInfo : Option UserInfo) (submissions : Option (List Submission))
deriving Repr, DecidableEq

/-- The `/api/submissions` response used by the refresh paths. -/
inductive RefreshResp where
  | httpFail
  | ok (submissions : Option (List Submission))
deriving Repr, DecidableEq

/-- The full session state of the provider: catalog-side state, the user
handle and info, the raw submission ledger (`rawSubmissionsRef`), the
derived state, the persisted handle (`cf_user_handle_v1`), the
fetched-for-handle ref, and a counter of activity-service calls made. -/
structure AppState where
  ps : PState
  handle : Option String
  userInfo : Option UserInfo
  rawSubmissions : List Submission
  solvedSet : List String
  attemptedUnsolved : List AttemptInfo
  solvingStreak : Nat
  dailyCounts : List (Int × Nat)
  loadingUser : Bool
  persistedHandle : Option String
  hasFetchedForHandle : Option String
  userCalls : Nat
deriving Repr, DecidableEq

/-- Install a recomputed `DerivedState` into the session state
(the four `set...` calls at source lines 294-297). -/
def applyDerived (st : AppState) (d : DerivedState) : AppState :=
  { st with
    solvingStreak := d.streak
    dailyCounts := d.dailyCounts
    solvedSet := d.solvedSet
    attemptedUnsolved := d.attemptedUnsolved }

/-- `fetchAndMergeUserData` (source lines 300-334): one activity-service
call; throws (returns `false`) on HTTP failure or when the response carries
no `userInfo`; otherwise installs the user info, replaces the ledger with
the fetched submissions and recomputes the derived state. -/
def fetchAndMergeUserData (localDay : Int → Int) (today : Int)
    (resp : UserResp) (st : AppState) : AppState × Bool :=
  let st := { st with loadingUser := true, userCalls := st.userCalls + 1 }
  match resp with
  | .httpFail => ({ st with loadingUser := false }, false)
  | .ok none _ => ({ st with loadingUser := false }, false)
  | .ok (some ui) subsOpt =>
      let subs := subsOpt.getD []
      let st := { st with userInfo := some ui, rawSubmissions := subs }
      let st := applyDerived st (processSubmissions localDay today subs)
      ({ st with loadingUser := false }, true)

/-- `clearUser` (source lines 438-448). Note that `rawSubmissionsRef` is not
cleared by the source. -/
def clearUser (st : AppState) : AppState :=
  { st with
    handle := none
    userInfo := none
    solvedSet := []
    attemptedUnsolved := []
    solvingStreak := 0
    dailyCounts := []
    hasFetchedForHandle := none
    ps := { st.ps with hasFetched := false }
    persistedHandle := none }

/-- Result of `setHandleAndFetch`: rejected synchronously by validation,
rejected with a thrown error, or completed. -/
inductive SetResult where
  | rejected
  | errored
  | success
deriving Repr, DecidableEq

/-- `setHandleAndFetch` (source lines 418-436): validate the normalized
handle, record and persist it, fetch the catalog when absent, then fetch
and merge the user data, rolling back with `clearUser` on failure. -/
def setHandleAndFetch (localDay : Int → Int) (today now : Int)
    (probResp : Nat → AttemptOutcome) (userResp : UserResp)
    (h : String) (st : AppState) : AppState × SetResult :=
  if !(handleRegexTest (nfkc h)) then (st, .rejected)
  else
    let st := { st with
      handle := some h
      hasFetchedForHandle := some h
      persistedHandle := some h }
    let st :=
      if st.ps.problems.isEmpty then { st with ps := fetchProblems now probResp st.ps }
      else st
    match fetchAndMergeUserData localDay today userResp st with
    | (st, true) => (st, .success)
    | (st, false) => (clearUser st, .errored)

/-- `refreshUserSubmissions` (source lines 336-372): validate, fetch, and
incrementally merge new records on top of the ledger; failures are
swallowed. -/
def refreshUserSubmissions (localDay : Int → Int) (today : Int)
    (resp : RefreshResp) (h : String) (st : AppState) : AppState :=
  if h = "" then st
  else if !(handleRegexTest (nfkc h)) then st
  else
    let st := { st with userCalls := st.userCalls + 1 }
    match resp with
    | .httpFail => st
    | .ok none => st
    | .ok (some newSubs) =>
        let existingIds := st.rawSubmissions.map Submission.id
        let uniqueNew := newSubs.filter (fun s => !(existingIds.contains s.id))
        if 0 < uniqueNew.length then
          let merged := uniqueNew ++ st.rawSubmissions
          applyDerived { st with rawSubmissions := merged }
            (processSubmissions localDay today merged)
        else st

/-! ## Persistent Cache Adapter (`SafeStorage`, RatingSelector.tsx
lines 537-654) -/

/-- A stored value: its text together with the timestamp that
`JSON.parse(text)` would expose as `parsed.timestamp || parsed.lastUpdated`
(absent when the text is not JSON or carries no truthy timestamp). -/
structure StoredVal where
  text : String
  ts : Option Int
deriving Repr, DecidableEq

/-- The underlying `localStorage`: insertion-ordered entries plus the
browser-imposed byte capacity; a raw write beyond the capacity raises
`QuotaExceededError`. -/
structure RawStore where
  entries : List (String × StoredVal)
  capacity : Nat
deriving Repr, DecidableEq

/-- `Blob([key + value]).size` summed over the store
(`SafeStorage.getTotalSize`, lines 591-605). -/
def storeTotal (entries : List (String × StoredVal)) : Nat :=
  entries.foldl (fun t kv => t + (kv.1 ++ kv.2.text).utf8ByteSize) 0

/-- Raw `localStorage.setItem`: replace in place or append; raise the
quota-exceeded condition when the resulting store would exceed the
capacity. -/
def rawSet (st : RawStore) (k : String) (v : StoredVal) : Except Unit RawStore :=
  let newEntries := assocSet st.entries k v
  if storeTotal newEntries ≤ st.capacity then .ok { st with entries := newEntries }
  else .error ()

/-- The metadata collected per item by `SafeStorage.cleanup`
(lines 612-633). -/
structure CleanItem where
  key : String
  size : Nat
  ts : Option Int
deriving Repr, DecidableEq

/-- Collect `{key, size, timestamp}` for every stored item. -/
def collectItems (st : RawStore) : List CleanItem :=
  st.entries.map (fun kv => ⟨kv.1, kv.2.text.utf8ByteSize, kv.2.ts⟩)

/-- The cleanup comparator (lines 636-641): oldest first when both carry a
timestamp, largest first otherwise. -/
def cleanupLe (a b : CleanItem) : Bool :=
  match a.ts, b.ts with
  | some x, some y => decide (x ≤ y)
  | _, _ => decide (b.size ≤ a.size)

/-- Stable insertion into a `cleanupLe`-sorted list. -/
def insClean (x : CleanItem) : List CleanItem → List CleanItem
  | [] => [x]
  | y :: ys => if cleanupLe y x then y :: insClean x ys else x :: y :: ys

/-- Stable sort by the cleanup comparator. -/
def sortClean : List CleanItem → List CleanItem
  | [] => []
  | x :: xs => insClean x (sortClean xs)

/-- The removal loop (lines 643-649): remove items in sorted order until the
running size drops below the 3MB threshold. -/
def cleanupGo (entries : List (String × StoredVal)) (cur : Int) :
    List CleanItem → List (String × StoredVal)
  | [] => entries
  | it :: rest =>
      if cur < 3000000 then entries
      else cleanupGo (entries.filter (fun kv => !(kv.1 == it.key))) (cur - it.size) rest

/-- `SafeStorage.cleanup` (lines 610-653). -/
def cleanup (st : RawStore) : RawStore :=
  let sorted := sortClean (collectItems st)
  { st with entries := cleanupGo st.entries (storeTotal st.entries) sorted }

/-- `SafeStorage.setItem` (lines 541-574): key validation, the per-key size
ceiling, the pre-emptive cleanup when the cumulative 5MB ceiling would be
exceeded, the single raw write, and the catch-all that turns a
quota-exceeded condition into a cleanup plus a refused (`false`) result. -/
def setItem (st : RawStore) (k : String) (v : StoredVal) (maxSizeBytes : Nat) :
    RawStore × Bool :=
  if k = "" ∨ 100 < k.length then (st, false)
  else
    let size := v.text.utf8ByteSize
    if maxSizeBytes < size then (st, false)
    else
      let totalSize := storeTotal st.entries
      let st1 := if 5000000 < totalSize + size then cleanup st else st
      match rawSet st1 k v with
      | .ok st2 => (st2, true)
      | .error _ => (cleanup st1, false)

/-! ## Concrete sample data used by witnesses and counterexamples -/

/-- A concrete local-calendar map: UTC day numbers. -/
def dayOf : Int → Int := fun ts => ts / 86400

/-- A fully populated submission problem. -/
def probA : SubProblem := ⟨some 1, some "A", some "Sum", some ["math"]⟩

/-- An accepted submission on problem `1-A`. -/
def subOK : Submission := ⟨1, some probA, some "OK", some 100⟩

/-- A rejected submission on problem `1-A`. -/
def subWA : Submission := ⟨1, some probA, some "WRONG_ANSWER", some 100⟩

/-- A later rejected submission on problem `1-A`. -/
def subTLE : Submission := ⟨2, some probA, some "TIME_LIMIT_EXCEEDED", some 200⟩

/-- A submission carrying no problem object, no verdict and no timestamp. -/
def subBare : Submission := ⟨7, none, none, none⟩

/-- A submission whose problem lacks a contest id. -/
def subNoCid : Submission := ⟨8, some ⟨none, some "a", none, none⟩, none, none⟩

/-- A concrete catalog problem. -/
def catA : Problem := ⟨some 1, "A", "Sum", ["math"], 0⟩

/-- The catalog-side state of a cold start: nothing cached, nothing loaded. -/
def pstate0 : PState := ⟨⟨none, none⟩, [], [], none, false, false, 0⟩

/-- A catalog service that fails every attempt. -/
def respFail : Nat → AttemptOutcome := fun _ => .fail

/-- A catalog service that answers with a truthy but malformed body
(an object without a `result` field). -/
def respMalformed : Nat → AttemptOutcome := fun _ => .ok (.obj none)

/-- A concrete user record. -/
def ui0 : UserInfo := ⟨"alice", 1500, 1600, "expert", ""⟩

/-- The session state of a cold start. -/
def app0 : AppState := ⟨pstate0, none, none, [], [], [], 0, [], false, none, none, 0⟩

/-- A session state whose catalog is already loaded. -/
def appWithCatalog : AppState :=
  { app0 with ps := { pstate0 with problems := [catA] } }

/-- A string of `n` copies of `a`, used to build large stored values. -/
def repChar (n : Nat) : String := String.mk (List.replicate n 'a')

/-- A store holding one item of 5000001 bytes (key included), enough to
trip the cumulative 5MB ceiling. -/
def stBig : RawStore := ⟨[("k", ⟨repChar 5000000, none⟩)], 10000000⟩

/-- An empty store whose browser quota refuses every write. -/
def stTiny : RawStore := ⟨[], 0⟩

/-- Relation between the `attempted` map and the already-processed prefix
of the submission list: a key is present exactly when some processed record
has that key; the stored verdict and timestamp come from the first such
record in iteration order; `attempts` counts all such records. -/
def AttInv (processed : List Submission) (att : List (String × AttemptInfo)) : Prop :=
  ∀ k : String,
    (att.lookup k).map (fun i => (i.key, i.lastVerdict, i.lastTime, i.attempts)) =
      (processed.find? (fun s => subKey s == k)).map
        (fun s0 => (k, s0.verdict, subTime s0,
          processed.countP (fun s => subKey s == k)))

/-! # Theorems -/

/-! ## C1: merge idempotence -/

/-- `List.contains` agrees with membership on id lists. -/
theorem contains_id_iff (l : List Int) (n : Int) :
    l.contains n = true ↔ n ∈ l :=
  List.elem_iff

/-- After a merge, the id of every batch record is present in the ledger. -/
theorem mergeSubs_contains_id (L B : List Submission) (s : Submission) (hs : s ∈ B) :
    ((mergeSubs L B).map Submission.id).contains s.id = true := by
  rw [contains_id_iff]
  simp only [mergeSubs]
  cases hb : (L.map Submission.id).contains s.id with
  | false =>
      have hsu : s ∈ B.filter (fun t => !((L.map Submission.id).contains t.id)) :=
        List.mem_filter.mpr ⟨hs, by
          show (!((L.map Submission.id).contains s.id)) = true
          rw [hb]
          rfl⟩
      split
      · rw [List.map_append, List.mem_append]
        exact Or.inl (List.mem_map_of_mem Submission.id hsu)
      · rename_i hlen
        exact absurd (List.length_pos.mpr (List.ne_nil_of_mem hsu)) hlen
  | true =>
      have hcL : s.id ∈ L.map Submission.id := (contains_id_iff _ s.id).mp hb
      split
      · rw [List.map_append, List.mem_append]
        exact Or.inr hcL
      · exact hcL

/-- Merging a batch with no fresh ids is a no-op. -/
theorem mergeSubs_eq_of_filter_nil (cur B : List Submission)
    (h : B.filter (fun s => !((cur.map Submission.id).contains s.id)) = []) :
    mergeSubs cur B = cur := by
  simp only [mergeSubs]
  rw [h]
  rfl

/-- C1: the ledger merge is idempotent — records whose id is already present
are dropped, so `merge(merge(L, B), B) = merge(L, B)` for every ledger `L`
and batch `B`, and merging the single-record batch `[subOK]` twice yields a
ledger of length 1, not 2. -/
theorem c1_merge_idempotent :
    (∀ (L B : List Submission), mergeSubs (mergeSubs L B) B = mergeSubs L B) ∧
    (mergeSubs (mergeSubs [] [subOK]) [subOK]).length = 1 := by
  constructor
  · intro L B
    apply mergeSubs_eq_of_filter_nil
    rw [List.filter_eq_nil_iff]
    intro a ha
    show ¬ (!(((mergeSubs L B).map Submission.id).contains a.id)) = true
    rw [mergeSubs_contains_id L B a ha]
    decide
  · rfl

/-! ## C2: disjointness of solved set and attempted-unsolved keys -/

/-- C2: for every submission list, every entry of the computed
`attemptedUnsolved` has a key that is not in the computed solved set. -/
theorem c2_disjointness (localDay : Int → Int) (today : Int) (subs : List Submission) :
    ((processSubmissions localDay today subs).attemptedUnsolved).all
      (fun a => !((processSubmissions localDay today subs).solvedSet.contains a.key)) = true := by
  simp only [processSubmissions]
  rw [List.all_eq_true]
  intro a ha
  exact (List.mem_filter.mp ha).2

/-! ## C4: streak correctness -/

/-- Members of `insertDesc y l` are `y` or members of `l`. -/
theorem mem_insertDesc (x y : Int) (l : List Int) (h : x ∈ insertDesc y l) :
    x = y ∨ x ∈ l := by
  induction l with
  | nil =>
      simp only [insertDesc] at h
      exact Or.inl (List.mem_singleton.mp h)
  | cons z zs ih =>
      rw [insertDesc] at h
      by_cases hc : z ≤ y
      · rw [if_pos hc] at h
        exact List.mem_cons.mp h
      · rw [if_neg hc] at h
        rcases List.mem_cons.mp h with h1 | h2
        · exact Or.inr (h1 ▸ List.mem_cons_self z zs)
        · rcases ih h2 with h3 | h4
          · exact Or.inl h3
          · exact Or.inr (List.mem_cons_of_mem z h4)

/-- Members of `sortDesc l` are members of `l`. -/
theorem mem_sortDesc (l : List Int) (x : Int) (h : x ∈ sortDesc l) : x ∈ l := by
  induction l with
  | nil =>
      rw [sortDesc] at h
      exact h
  | cons y ys ih =>
      rw [sortDesc] at h
      rcases mem_insertDesc x y (sortDesc ys) h with h1 | h2
      · exact h1 ▸ List.mem_cons_self y ys
      · exact List.mem_cons_of_mem y (ih h2)

/-- C4: streak correctness. With positive daily counts for today and
yesterday only, the streak is 2; with positive counts for today and 3 days
ago only, the streak is 1; and the streak is 0 whenever no active date lies
within one day of today. -/
theorem c4_streak_correct :
    (∀ (today : Int) (a b : Nat), 0 < a → 0 < b →
        computeStreak [(today, a), (today - 1, b)] today = 2) ∧
    (∀ (today : Int) (a b : Nat), 0 < a → 0 < b →
        computeStreak [(today, a), (today - 3, b)] today = 1) ∧
    (∀ (today : Int) (dc : List (Int × Nat)),
        (∀ d ∈ activeDays dc, today - d ≠ 0 ∧ today - d ≠ 1) →
        computeStreak dc today = 0) := by
  refine ⟨?_, ?_, ?_⟩
  · intro today a b ha hb
    have hact : activeDays [(today, a), (today - 1, b)] = [today, today - 1] := by
      simp [activeDays, ha, hb]
    have hsort : sortDesc [today, today - 1] = [today, today - 1] := by
      simp [sortDesc, insertDesc, show today - 1 ≤ today by omega]
    rw [computeStreak, hact, hsort, streakWalk]
    rw [if_pos (by omega : today - today = 0 ∨ today - today = 1)]
    rw [streakWalk]
    rw [if_pos (by omega : today - (today - 1) = 0 ∨ today - (today - 1) = 1)]
    rfl
  · intro today a b ha hb
    have hact : activeDays [(today, a), (today - 3, b)] = [today, today - 3] := by
      simp [activeDays, ha, hb]
    have hsort : sortDesc [today, today - 3] = [today, today - 3] := by
      simp [sortDesc, insertDesc, show today - 3 ≤ today by omega]
    rw [computeStreak, hact, hsort, streakWalk]
    rw [if_pos (by omega : today - today = 0 ∨ today - today = 1)]
    rw [streakWalk]
    rw [if_neg (by omega : ¬(today - (today - 3) = 0 ∨ today - (today - 3) = 1))]
  · intro today dc h
    rw [computeStreak]
    cases hsd : sortDesc (activeDays dc) with
    | nil => rfl
    | cons d rest =>
        have hd : d ∈ activeDays dc :=
          mem_sortDesc _ d (hsd ▸ List.mem_cons_self d rest)
        rw [streakWalk]
        rw [if_neg]
        intro habs
        rcases habs with h0 | h1
        · exact (h d hd).1 h0
        · exact (h d hd).2 h1

/-- Witness for C4 at concrete inputs: counts 1 on days 20000/19999 give
streak 2, on days 20000/19997 give streak 1, and a lone active day 19990
gives streak 0 from today 20000. -/
theorem c4_streak_correct_witness :
    computeStreak [(20000, 1), (20000 - 1, 1)] 20000 = 2 ∧
    computeStreak [(20000, 1), (20000 - 3, 1)] 20000 = 1 ∧
    computeStreak [(19990, 1)] 20000 = 0 :=
  ⟨c4_streak_correct.1 20000 1 1 (by decide) (by decide),
   c4_streak_correct.2.1 20000 1 1 (by decide) (by decide),
   c4_streak_correct.2.2 20000 [(19990, 1)] (by decide)⟩

/-! ## C3: which record sets `lastVerdict` and `lastTime` -/

/-- Looking up in a bumped map: the entry at the bumped key has its
`attempts` incremented, every other entry is unchanged. -/
theorem lookup_bumpInfo (key k : String) (l : List (String × AttemptInfo)) :
    (bumpInfo key l).lookup k =
      if k = key then (l.lookup k).map (fun i => { i with attempts := i.attempts + 1 })
      else l.lookup k := by
  induction l with
  | nil => by_cases h : k = key <;> simp [bumpInfo, h]
  | cons a t ih =>
      obtain ⟨a1, a2⟩ := a
      simp only [bumpInfo, List.map_cons] at ih ⊢
      by_cases h1 : a1 = key <;> by_cases h2 : k = a1
      · subst h1
        subst h2
        simp [List.lookup_cons]
      · subst h1
        have hb : (k == a1) = false := beq_false_of_ne h2
        simp only [beq_self_eq_true, if_true, List.lookup_cons, hb, if_neg h2]
        simpa [if_neg h2] using ih
      · have hb1 : (a1 == key) = false := beq_false_of_ne h1
        have hka : (k == a1) = true := beq_iff_eq.mpr h2
        have hknk : k ≠ key := fun hkk => h1 (h2 ▸ hkk)
        simp [List.lookup_cons, hb1, hka, if_neg hknk]
      · have hb1 : (a1 == key) = false := beq_false_of_ne h1
        have hb2 : (k == a1) = false := beq_false_of_ne h2
        simp only [hb1, Bool.false_eq_true, if_false, List.lookup_cons, hb2]
        exact ih

/-- The `attempted` component of one loop iteration: append a fresh entry
when the key is new, bump the existing entry otherwise. -/
theorem stepSub_attempted (localDay : Int → Int) (st : ProcState) (s : Submission) :
    (stepSub localDay st s).attempted =
      match st.attempted.lookup (subKey s) with
      | none => st.attempted ++ [(subKey s, freshInfo s)]
      | some _ => bumpInfo (subKey s) st.attempted := by
  have hatt : (if s.verdict = some "OK" then
      { st with
        solved := setAdd st.solved (subKey s)
        daily := assocBump st.daily (localDay (subTime s)) }
      else st).attempted = st.attempted := by
    split <;> rfl
  simp only [stepSub]
  rw [hatt]
  cases hl : st.attempted.lookup (subKey s) <;> rfl

/-- `find?` on a singleton whose element satisfies the predicate. -/
theorem find?_singleton_pos (s : Submission) (k : String) (h : (subKey s == k) = true) :
    [s].find? (fun t => subKey t == k) = some s := by
  simp [List.find?_cons, h]

/-- `find?` on a singleton whose element fails the predicate. -/
theorem find?_singleton_neg (s : Submission) (k : String) (h : (subKey s == k) = false) :
    [s].find? (fun t => subKey t == k) = none := by
  simp [List.find?_cons, h]

/-- `countP` on a singleton whose element satisfies the predicate. -/
theorem countP_singleton_pos (s : Submission) (k : String) (h : (subKey s == k) = true) :
    List.countP (fun t => subKey t == k) [s] = 1 := by
  simp [List.countP_cons, h]

/-- `countP` on a singleton whose element fails the predicate. -/
theorem countP_singleton_neg (s : Submission) (k : String) (h : (subKey s == k) = false) :
    List.countP (fun t => subKey t == k) [s] = 0 := by
  simp [List.countP_cons, h]

/-- `lookup` on a singleton with a matching key. -/
theorem lookup_singleton_pos (k key : String) (i : AttemptInfo) (h : (k == key) = true) :
    ([(key, i)] : List (String × AttemptInfo)).lookup k = some i := by
  rw [List.lookup_cons, h]

/-- `lookup` on a singleton with a non-matching key. -/
theorem lookup_singleton_neg (k key : String) (i : AttemptInfo) (h : (k == key) = false) :
    ([(key, i)] : List (String × AttemptInfo)).lookup k = none := by
  rw [List.lookup_cons, h]
  rfl

/-- One loop iteration preserves the attempted-map invariant, extending the
processed prefix by the processed record. -/
theorem attInv_step (localDay : Int → Int) (processed : List Submission)
    (st : ProcState) (s : Submission) (h : AttInv processed st.attempted) :
    AttInv (processed ++ [s]) (stepSub localDay st s).attempted := by
  intro k
  rw [stepSub_attempted]
  have hk := h k
  simp only [List.find?_append, List.countP_append]
  by_cases hks : subKey s = k
  · have hpred : (subKey s == k) = true := beq_iff_eq.mpr hks
    simp only [find?_singleton_pos s k hpred, countP_singleton_pos s k hpred]
    cases hl : st.attempted.lookup (subKey s) with
    | none =>
        have hlk : st.attempted.lookup k = none := hks ▸ hl
        have hfind : processed.find? (fun t => subKey t == k) = none := by
          cases hf : processed.find? (fun t => subKey t == k) with
          | none => rfl
          | some s0 =>
              rw [hlk, hf] at hk
              simp at hk
        have hcount : processed.countP (fun t => subKey t == k) = 0 :=
          List.countP_eq_zero.mpr (List.find?_eq_none.mp hfind)
        rw [List.lookup_append, hlk, Option.none_or]
        rw [lookup_singleton_pos k (subKey s) (freshInfo s) (beq_iff_eq.mpr hks.symm)]
        rw [hfind, Option.none_or]
        simp only [hcount, Option.map_some']
        rw [Option.some.injEq]
        simp only [freshInfo]
        rw [hks]
    | some info =>
        have hlk : st.attempted.lookup k = some info := hks ▸ hl
        rw [lookup_bumpInfo, if_pos hks.symm, hlk]
        cases hf : processed.find? (fun t => subKey t == k) with
        | none =>
            rw [hlk, hf] at hk
            simp at hk
        | some s0 =>
            rw [hlk, hf] at hk
            rw [Option.or_some]
            simp only [Option.map_some'] at hk ⊢
            rw [Option.some.injEq] at hk ⊢
            have hkey := congrArg (fun p => p.1) hk
            have hv := congrArg (fun p => p.2.1) hk
            have ht := congrArg (fun p => p.2.2.1) hk
            have hc := congrArg (fun p => p.2.2.2) hk
            simp only at hkey hv ht hc
            rw [hkey, hv, ht, hc]
  · have hpred : (subKey s == k) = false := beq_false_of_ne hks
    simp only [find?_singleton_neg s k hpred, countP_singleton_neg s k hpred,
      Option.or_none, Nat.add_zero]
    cases hl : st.attempted.lookup (subKey s) with
    | none =>
        rw [List.lookup_append]
        rw [lookup_singleton_neg k (subKey s) (freshInfo s)
          (beq_false_of_ne (fun he => hks he.symm))]
        rw [Option.or_none]
        exact hk
    | some info =>
        rw [lookup_bumpInfo, if_neg (fun he => hks he.symm)]
        exact hk

/-- Folding the loop body over a submission list preserves the
attempted-map invariant. -/
theorem attInv_foldl (localDay : Int → Int) :
    ∀ (subs pre : List Submission) (st : ProcState),
      AttInv pre st.attempted →
      AttInv (pre ++ subs) ((subs.foldl (stepSub localDay) st).attempted) := by
  intro subs
  induction subs with
  | nil =>
      intro pre st h
      simpa using h
  | cons s rest ih =>
      intro pre st h
      have h2 := attInv_step localDay pre st s h
      have h3 := ih (pre ++ [s]) (stepSub localDay st s) h2
      rw [List.append_assoc, List.singleton_append] at h3
      exact h3

/-- The attempted-map invariant holds for the map computed by
`processSubmissions`. -/
theorem attInv_processSubmissions (localDay : Int → Int) (today : Int)
    (subs : List Submission) :
    AttInv subs (processSubmissions localDay today subs).attempted := by
  have h0 : AttInv [] (⟨[], [], []⟩ : ProcState).attempted := fun _ => rfl
  have h := attInv_foldl localDay subs [] ⟨[], [], []⟩ h0
  rw [List.nil_append] at h
  exact h

/-- C3 amended: the `AttemptInfo` stored for a key carries the verdict and
timestamp of the record for that key processed first in iteration order
(creation initializes them and later records never update them), while
`attempts` counts every record touching the key. -/
theorem c3_amended_first_record_sets_info (localDay : Int → Int) (today : Int)
    (subs : List Submission) (k : String) (info : AttemptInfo)
    (h : (processSubmissions localDay today subs).attempted.lookup k = some info) :
    (subs.find? (fun s => subKey s == k)).map (fun s0 => (s0.verdict, subTime s0)) =
      some (info.lastVerdict, info.lastTime) ∧
    info.attempts = subs.countP (fun s => subKey s == k) := by
  have hk := attInv_processSubmissions localDay today subs k
  rw [h] at hk
  cases hf : subs.find? (fun s => subKey s == k) with
  | none =>
      rw [hf] at hk
      simp at hk
  | some s0 =>
      rw [hf] at hk
      simp only [Option.map_some'] at hk ⊢
      rw [Option.some.injEq] at hk
      have hv := congrArg (fun p => p.2.1) hk
      have ht := congrArg (fun p => p.2.2.1) hk
      have hc := congrArg (fun p => p.2.2.2) hk
      simp only at hv ht hc
      exact ⟨by rw [hv, ht], by rw [hc]⟩

/-- Witness for the amended C3: on `[subWA, subTLE]` the key `1-A` stores
the first record's verdict and time and counts 2 attempts. -/
theorem c3_amended_first_record_sets_info_witness :
    ∃ info : AttemptInfo,
      (processSubmissions dayOf 0 [subWA, subTLE]).attempted.lookup "1-A" = some info ∧
      (([subWA, subTLE].find? (fun s => subKey s == "1-A")).map
          (fun s0 => (s0.verdict, subTime s0)) =
        some (info.lastVerdict, info.lastTime) ∧
      info.attempts = [subWA, subTLE].countP (fun s => subKey s == "1-A")) := by
  refine ⟨{ key := "1-A", contestId := .int 1, index := "A", name := some "Sum",
            tags := ["math"], attempts := 2, lastVerdict := some "WRONG_ANSWER",
            lastTime := 100,
            link := "https://codeforces.com/contest/1/problem/A" }, ?_, ?_⟩
  · rfl
  · exact c3_amended_first_record_sets_info dayOf 0 [subWA, subTLE] "1-A" _ (by rfl)

/-- C3 counterexample: with two records on the same key, the stored
`lastVerdict`/`lastTime` are those of the record processed first, not last:
the claim's predicted value differs from the computed one. -/
theorem c3_counterexample :
    [subWA, subTLE].getLast? = some subTLE ∧
    subTLE.verdict = some "TIME_LIMIT_EXCEEDED" ∧
    subTime subTLE = 200 ∧
    ((processSubmissions dayOf 0 [subWA, subTLE]).attempted.lookup "1-A").map
        (fun i => (i.lastVerdict, i.lastTime)) = some (some "WRONG_ANSWER", 100) ∧
    ((some "WRONG_ANSWER", (100 : Int)) ≠ (some "TIME_LIMIT_EXCEEDED", (200 : Int))) := by
  refine ⟨rfl, rfl, rfl, rfl, by decide⟩

/-! ## C10: totality of derived-state computation -/

/-- Bumping a key that is not present leaves the map unchanged. -/
theorem bumpInfo_eq_self (key : String) (l : List (String × AttemptInfo))
    (h : key ∉ l.map Prod.fst) : bumpInfo key l = l := by
  induction l with
  | nil => rfl
  | cons a t ih =>
      rw [List.map_cons, List.mem_cons] at h
      push_neg at h
      have hb : (a.1 == key) = false := beq_false_of_ne (fun he => h.1 he.symm)
      have htail := ih h.2
      simp only [bumpInfo, List.map_cons]
      simp only [bumpInfo] at htail
      rw [if_neg (by rw [hb]; exact Bool.false_ne_true), htail]

/-- Bumping preserves the key list. -/
theorem keys_bumpInfo (key : String) (l : List (String × AttemptInfo)) :
    (bumpInfo key l).map Prod.fst = l.map Prod.fst := by
  induction l with
  | nil => rfl
  | cons a t ih =>
      simp only [bumpInfo, List.map_cons] at ih ⊢
      rw [ih]
      congr 1
      by_cases hc : (a.1 == key) = true
      · rw [if_pos hc]
      · rw [if_neg hc]

/-- Bumping an existing key adds exactly one to the total attempt count
when keys are unique. -/
theorem sum_bumpInfo (key : String) (l : List (String × AttemptInfo))
    (hnd : (l.map Prod.fst).Nodup) (hmem : key ∈ l.map Prod.fst) :
    ((bumpInfo key l).map (fun kv => kv.2.attempts)).sum =
      (l.map (fun kv => kv.2.attempts)).sum + 1 := by
  induction l with
  | nil => simp at hmem
  | cons a t ih =>
      rw [List.map_cons] at hnd
      have hnd2 := List.nodup_cons.mp hnd
      by_cases h1 : a.1 = key
      · have hb : (a.1 == key) = true := beq_iff_eq.mpr h1
        have hnt : key ∉ t.map Prod.fst := h1 ▸ hnd2.1
        simp only [bumpInfo, List.map_cons]
        rw [if_pos hb]
        have htail : bumpInfo key t = t := bumpInfo_eq_self key t hnt
        simp only [bumpInfo] at htail
        rw [htail]
        simp only [List.sum_cons]
        omega
      · have hb : (a.1 == key) = false := beq_false_of_ne h1
        have hmt : key ∈ t.map Prod.fst := by
          rcases List.mem_cons.mp hmem with hcase | hcase
          · exact absurd hcase.symm h1
          · exact hcase
        simp only [bumpInfo, List.map_cons]
        rw [if_neg (by rw [hb]; exact fun habs => absurd habs (by decide))]
        have := ih hnd2.2 hmt
        simp only [bumpInfo] at this
        simp only [List.sum_cons, this]
        omega

/-- One loop iteration adds exactly one attempt overall and keeps the key
list duplicate-free. -/
theorem stepSub_attempts_sum (localDay : Int → Int) (st : ProcState) (s : Submission)
    (hnd : (st.attempted.map Prod.fst).Nodup) :
    (((stepSub localDay st s).attempted.map (fun kv => kv.2.attempts)).sum
        = (st.attempted.map (fun kv => kv.2.attempts)).sum + 1) ∧
    ((stepSub localDay st s).attempted.map Prod.fst).Nodup := by
  cases hl : st.attempted.lookup (subKey s) with
  | none =>
      have hnotmem : subKey s ∉ st.attempted.map Prod.fst := by
        intro hmem
        obtain ⟨p, hp, hfst⟩ := List.mem_map.mp hmem
        have hbne := List.lookup_eq_none_iff.mp hl p hp
        rw [hfst] at hbne
        simp at hbne
      constructor
      · rw [stepSub_attempted, hl, List.map_append, List.sum_append]
        simp [freshInfo]
      · rw [stepSub_attempted, hl, List.map_append]
        refine List.Nodup.append hnd (List.nodup_singleton _) ?_
        intro x hx hx2
        simp only [List.map_cons, List.map_nil, List.mem_singleton] at hx2
        rw [hx2] at hx
        exact hnotmem hx
  | some info =>
      have hmem : subKey s ∈ st.attempted.map Prod.fst := by
        rcases List.lookup_eq_some_iff.mp hl with ⟨l₁, l₂, hsplit, _⟩
        rw [hsplit, List.map_append]
        exact List.mem_append.mpr (Or.inr (by simp))
      constructor
      · rw [stepSub_attempted, hl]
        exact sum_bumpInfo (subKey s) st.attempted hnd hmem
      · rw [stepSub_attempted, hl, keys_bumpInfo]
        exact hnd

/-- Folding the loop over a list adds its length to the total attempt
count. -/
theorem attempts_sum_foldl (localDay : Int → Int) :
    ∀ (subs : List Submission) (st : ProcState),
      (st.attempted.map Prod.fst).Nodup →
      ((((subs.foldl (stepSub localDay) st).attempted.map (fun kv => kv.2.attempts)).sum
          = (st.attempted.map (fun kv => kv.2.attempts)).sum + subs.length) ∧
       ((subs.foldl (stepSub localDay) st).attempted.map Prod.fst).Nodup) := by
  intro subs
  induction subs with
  | nil =>
      intro st h
      exact ⟨by simp, h⟩
  | cons s rest ih =>
      intro st h
      have hstep := stepSub_attempts_sum localDay st s h
      have hrest := ih (stepSub localDay st s) hstep.2
      constructor
      · rw [List.foldl_cons, hrest.1, hstep.1, List.length_cons]
        omega
      · rw [List.foldl_cons]
        exact hrest.2

/-- Every processed record's key is present in the computed attempted map. -/
theorem lookup_isSome_of_mem (localDay : Int → Int) (today : Int)
    (subs : List Submission) (s : Submission) (hs : s ∈ subs) :
    ((processSubmissions localDay today subs).attempted.lookup (subKey s)).isSome = true := by
  have hk := attInv_processSubmissions localDay today subs (subKey s)
  cases hf : subs.find? (fun t => subKey t == subKey s) with
  | none =>
      have hnb := List.find?_eq_none.mp hf s hs
      exact absurd (beq_self_eq_true (subKey s)) hnb
  | some s0 =>
      rw [hf] at hk
      cases hl : (processSubmissions localDay today subs).attempted.lookup (subKey s) with
      | none =>
          rw [hl] at hk
          simp at hk
      | some info => rfl

/-- C10 amended: `processSubmissions` is total and assigns every record a
key counted in that key's `attempts` (the total attempt count equals the
list length and every record's key is present); a record with a missing
problem object or a missing contest id is keyed with the string `NaN` for
the contest-id component (the `Number` coercion yields `NaN`, not the empty
string), a missing index defaults to the empty string, and a missing
timestamp to 0. -/
theorem c10_amended_totality (localDay : Int → Int) (today : Int)
    (subs : List Submission) :
    ((processSubmissions localDay today subs).attempted.map
        (fun kv => kv.2.attempts)).sum = subs.length ∧
    (subs.all (fun s =>
        ((processSubmissions localDay today subs).attempted.lookup (subKey s)).isSome)
      = true) ∧
    subKey subBare = "NaN-" ∧ subTime subBare = 0 ∧
    subKey subNoCid = "NaN-A" ∧
    subIndex ⟨9, some ⟨some 5, none, none, none⟩, none, none⟩ = "" := by
  refine ⟨?_, ?_, rfl, rfl, rfl, rfl⟩
  · have h := attempts_sum_foldl localDay subs ⟨[], [], []⟩ (by simp)
    have hpa : (processSubmissions localDay today subs).attempted =
        (subs.foldl (stepSub localDay) ⟨[], [], []⟩).attempted := rfl
    rw [hpa, h.1]
    simp
  · rw [List.all_eq_true]
    intro s hs
    exact lookup_isSome_of_mem localDay today subs s hs

/-- C10 counterexample: the key of a record with a missing contest id has
contest-id component `NaN`, not the empty string. -/
theorem c10_counterexample :
    subKey subNoCid = "NaN-A" ∧ subKey subNoCid ≠ "-A" ∧
    subKey subBare = "NaN-" ∧ subKey subBare ≠ "-" := by
  refine ⟨rfl, by decide, rfl, by decide⟩

/-! ## C7: catalog cache TTL -/

/-- The retry loop makes at least one network call when it has fuel. -/
theorem fetchAttempts_pos (resp : Nat → AttemptOutcome) (a f : Nat) (hf : 0 < f) :
    0 < (fetchAttempts resp a f).2 := by
  cases f with
  | zero => exact absurd hf (by omega)
  | succ n =>
      simp only [fetchAttempts]
      cases hr : resp a <;> simp

/-- When every attempt fails, the retry loop returns no data after exactly
3 calls. -/
theorem fetchAttempts_all_fail (resp : Nat → AttemptOutcome)
    (h : ∀ i, i < 3 → resp i = .fail) :
    fetchAttempts resp 0 3 = (none, 3) := by
  have h0 := h 0 (by omega)
  have h1 := h 1 (by omega)
  have h2 := h 2 (by omega)
  simp [fetchAttempts, h0, h1, h2]

/-- When attempt 0 succeeds, the retry loop returns its data after one
call. -/
theorem fetchAttempts_first_ok (resp : Nat → AttemptOutcome) (d : JsonData)
    (h : resp 0 = .ok d) :
    fetchAttempts resp 0 3 = (some d, 1) := by
  simp [fetchAttempts, h]

/-- C7: TTL respected. A non-empty schema-valid cached catalog entry
younger than the 6-hour TTL is returned with zero network calls; an entry
written 7 hours ago is stale and triggers a fresh fetch (at least one
network call). -/
theorem c7_ttl_respected :
    (∀ (st : PState) (now age : Int) (resp : Nat → AttemptOutcome) (items : List Problem),
        st.hasFetched = false →
        st.cache.payload = some (.arr items) →
        0 < items.length →
        st.cache.ts = some (now - age) →
        age < PROBLEMS_CACHE_TTL_MS →
        (fetchProblems now resp st).networkCalls = st.networkCalls ∧
        (fetchProblems now resp st).problems = items) ∧
    (∀ (st : PState) (now : Int) (resp : Nat → AttemptOutcome),
        st.hasFetched = false →
        st.cache.ts = some (now - 7 * 60 * 60 * 1000) →
        st.networkCalls < (fetchProblems now resp st).networkCalls) := by
  constructor
  · intro st now age resp items h1 h2 h3 h4 h5
    obtain ⟨⟨pay, ts⟩, probs, tags, err, ld, hf, nc⟩ := st
    simp only at h1 h2 h4
    subst h1
    subst h2
    subst h4
    have hage : now - (now - age) = age := by omega
    constructor
    · simp [fetchProblems, hage, h5, h3]
    · simp [fetchProblems, hage, h5, h3]
  · intro st now resp h1 h2
    obtain ⟨⟨pay, ts⟩, probs, tags, err, ld, hf, nc⟩ := st
    simp only at h1 h2
    subst h1
    subst h2
    have hstale : ¬(now - (now - 7 * 60 * 60 * 1000) < PROBLEMS_CACHE_TTL_MS) := by
      rw [PROBLEMS_CACHE_TTL_MS]
      omega
    have hcalls := fetchAttempts_pos resp 0 3 (by omega)
    simp only [fetchProblems]
    simp only [Bool.false_eq_true, if_false, hstale, decide_eq_true_eq]
    cases pay with
    | none =>
        cases hfd : (fetchAttempts resp 0 3).1 with
        | none => simp [hfd]; omega
        | some d =>
            cases d with
            | nullData => simp [hfd]; omega
            | obj r =>
                    cases hbc : buildCatalog r with
                    | error e => simp [hfd, hbc]; omega
                    | ok merged => simp [hfd, hbc]; omega
    | some cp =>
        cases cp with
        | corrupt =>
            cases hfd : (fetchAttempts resp 0 3).1 with
            | none => simp [hfd]; omega
            | some d =>
                cases d with
                | nullData => simp [hfd]; omega
                | obj r =>
                    cases hbc : buildCatalog r with
                    | error e => simp [hfd, hbc]; omega
                    | ok merged => simp [hfd, hbc]; omega
        | nonArray =>
            cases hfd : (fetchAttempts resp 0 3).1 with
            | none => simp [hfd]; omega
            | some d =>
                cases d with
                | nullData => simp [hfd]; omega
                | obj r =>
                    cases hbc : buildCatalog r with
                    | error e => simp [hfd, hbc]; omega
                    | ok merged => simp [hfd, hbc]; omega
        | arr items =>
            cases hfd : (fetchAttempts resp 0 3).1 with
            | none => simp [hfd]; omega
            | some d =>
                cases d with
                | nullData => simp [hfd]; omega
                | obj r =>
                    cases hbc : buildCatalog r with
                    | error e => simp [hfd, hbc]; omega
                    | ok merged => simp [hfd, hbc]; omega

/-- Witness for C7: a one-hour-old cached entry is served with zero calls;
a seven-hour-old one triggers a fetch. -/
theorem c7_ttl_respected_witness :
    ((fetchProblems 3600000 respFail
        { pstate0 with cache := ⟨some (.arr [catA]), some 0⟩ }).networkCalls = 0 ∧
     (fetchProblems 3600000 respFail
        { pstate0 with cache := ⟨some (.arr [catA]), some 0⟩ }).problems = [catA]) ∧
    0 < (fetchProblems (7 * 60 * 60 * 1000) respFail
        { pstate0 with cache := ⟨some (.arr [catA]), some 0⟩ }).networkCalls := by
  constructor
  · exact c7_ttl_respected.1
      { pstate0 with cache := ⟨some (.arr [catA]), some 0⟩ }
      3600000 3600000 respFail [catA] rfl rfl (by decide) (by decide)
      (by rw [PROBLEMS_CACHE_TTL_MS]; omega)
  · exact c7_ttl_respected.2
      { pstate0 with cache := ⟨some (.arr [catA]), some 0⟩ }
      (7 * 60 * 60 * 1000) respFail rfl (by decide)

/-! ## C5: catalog fetch failure handling -/

/-- C5 amended: three exhausted network attempts with no prior cache
surface a fetch failure and cache nothing; a null response body, and a
non-null body whose processing throws (a truthy non-iterable
`problemStatistics`, or a `problems` array containing a null entry), are
treated identically — the failure is surfaced and nothing is cached; but a
non-null empty or malformed body whose processing completes (e.g. an
object without a `result` field, or an empty problems array) is treated as
a successful fetch of an empty catalog: no failure is reported,
`hasFetched` is set, and the merged (possibly empty) list is written to
the cache. -/
theorem c5_amended_failure_handling :
    (∀ (st : PState) (now : Int) (resp : Nat → AttemptOutcome),
        st.hasFetched = false →
        st.cache.payload = none →
        (∀ i, i < 3 → resp i = .fail) →
        (fetchProblems now resp st).errorProblems = some "Failed to fetch problems" ∧
        (fetchProblems now resp st).cache = st.cache ∧
        (fetchProblems now resp st).problems = st.problems) ∧
    (∀ (st : PState) (now : Int) (resp : Nat → AttemptOutcome),
        st.hasFetched = false →
        st.cache.payload = none →
        resp 0 = .ok .nullData →
        (fetchProblems now resp st).errorProblems = some "Failed to fetch problems" ∧
        (fetchProblems now resp st).cache = st.cache) ∧
    (∀ (st : PState) (now : Int) (resp : Nat → AttemptOutcome) (r : Option ApiResult),
        st.hasFetched = false →
        st.cache.payload = none →
        resp 0 = .ok (.obj r) →
        buildCatalog r = .error () →
        (fetchProblems now resp st).errorProblems = some "Failed to fetch problems" ∧
        (fetchProblems now resp st).cache = st.cache ∧
        (fetchProblems now resp st).problems = st.problems ∧
        (fetchProblems now resp st).hasFetched = false) ∧
    (∀ (st : PState) (now : Int) (resp : Nat → AttemptOutcome) (r : Option ApiResult)
        (merged : List Problem),
        st.hasFetched = false →
        st.cache.payload = none →
        resp 0 = .ok (.obj r) →
        buildCatalog r = .ok merged →
        (fetchProblems now resp st).errorProblems = none ∧
        (fetchProblems now resp st).hasFetched = true ∧
        (fetchProblems now resp st).problems = merged ∧
        (fetchProblems now resp st).cache.payload = some (.arr merged)) := by
  refine ⟨?_, ?_, ?_, ?_⟩
  · intro st now resp h1 h2 h3
    obtain ⟨⟨pay, ts⟩, probs, tags, err, ld, hf, nc⟩ := st
    simp only at h1 h2
    subst h1
    subst h2
    have hfa := fetchAttempts_all_fail resp h3
    cases ts with
    | none => simp [fetchProblems, hfa]
    | some t => simp [fetchProblems, hfa]
  · intro st now resp h1 h2 h3
    obtain ⟨⟨pay, ts⟩, probs, tags, err, ld, hf, nc⟩ := st
    simp only at h1 h2
    subst h1
    subst h2
    have hfa := fetchAttempts_first_ok resp .nullData h3
    cases ts with
    | none => simp [fetchProblems, hfa]
    | some t => simp [fetchProblems, hfa]
  · intro st now resp r h1 h2 h3 hbc
    obtain ⟨⟨pay, ts⟩, probs, tags, err, ld, hf, nc⟩ := st
    simp only at h1 h2
    subst h1
    subst h2
    have hfa := fetchAttempts_first_ok resp (.obj r) h3
    cases ts with
    | none => simp [fetchProblems, hfa, hbc]
    | some t => simp [fetchProblems, hfa, hbc]
  · intro st now resp r merged h1 h2 h3 hbc
    obtain ⟨⟨pay, ts⟩, probs, tags, err, ld, hf, nc⟩ := st
    simp only at h1 h2
    subst h1
    subst h2
    have hfa := fetchAttempts_first_ok resp (.obj r) h3
    cases ts with
    | none => simp [fetchProblems, hfa, hbc]
    | some t => simp [fetchProblems, hfa, hbc]

/-- Witness for the amended C5 at concrete inputs: exhausted attempts, a
null body, a body with a truthy non-iterable `problemStatistics`, a body
whose `problems` array holds a null entry, and a malformed body without a
`result` field. -/
theorem c5_amended_failure_handling_witness :
    ((fetchProblems 0 respFail pstate0).errorProblems = some "Failed to fetch problems" ∧
     (fetchProblems 0 respFail pstate0).cache = pstate0.cache ∧
     (fetchProblems 0 respFail pstate0).problems = pstate0.problems) ∧
    ((fetchProblems 0 (fun _ => .ok .nullData) pstate0).errorProblems
        = some "Failed to fetch problems" ∧
     (fetchProblems 0 (fun _ => .ok .nullData) pstate0).cache = pstate0.cache) ∧
    ((fetchProblems 0 (fun _ => .ok (.obj (some ⟨none, .nonIterable⟩))) pstate0).errorProblems
        = some "Failed to fetch problems" ∧
     (fetchProblems 0 (fun _ => .ok (.obj (some ⟨none, .nonIterable⟩))) pstate0).cache
        = pstate0.cache ∧
     (fetchProblems 0 (fun _ => .ok (.obj (some ⟨none, .nonIterable⟩))) pstate0).problems
        = pstate0.problems ∧
     (fetchProblems 0 (fun _ => .ok (.obj (some ⟨none, .nonIterable⟩))) pstate0).hasFetched
        = false) ∧
    ((fetchProblems 0 (fun _ => .ok (.obj (some ⟨some [.nullEntry], .absent⟩)))
        pstate0).errorProblems = some "Failed to fetch problems" ∧
     (fetchProblems 0 (fun _ => .ok (.obj (some ⟨some [.nullEntry], .absent⟩)))
        pstate0).cache = pstate0.cache ∧
     (fetchProblems 0 (fun _ => .ok (.obj (some ⟨some [.nullEntry], .absent⟩)))
        pstate0).problems = pstate0.problems ∧
     (fetchProblems 0 (fun _ => .ok (.obj (some ⟨some [.nullEntry], .absent⟩)))
        pstate0).hasFetched = false) ∧
    ((fetchProblems 0 respMalformed pstate0).errorProblems = none ∧
     (fetchProblems 0 respMalformed pstate0).hasFetched = true ∧
     (fetchProblems 0 respMalformed pstate0).problems = [] ∧
     (fetchProblems 0 respMalformed pstate0).cache.payload = some (.arr [])) :=
  ⟨c5_amended_failure_handling.1 pstate0 0 respFail rfl rfl (fun _ _ => rfl),
   c5_amended_failure_handling.2.1 pstate0 0 (fun _ => .ok .nullData) rfl rfl rfl,
   c5_amended_failure_handling.2.2.1 pstate0 0
     (fun _ => .ok (.obj (some ⟨none, .nonIterable⟩)))
     (some ⟨none, .nonIterable⟩) rfl rfl rfl rfl,
   c5_amended_failure_handling.2.2.1 pstate0 0
     (fun _ => .ok (.obj (some ⟨some [.nullEntry], .absent⟩)))
     (some ⟨some [.nullEntry], .absent⟩) rfl rfl rfl rfl,
   c5_amended_failure_handling.2.2.2 pstate0 0 respMalformed none [] rfl rfl rfl rfl⟩

/-- C5 counterexample: a truthy but malformed response body (an object with
no `result` field) on a cold start is cached as an empty catalog and no
failure is surfaced, contradicting the claim that it is treated like a
network failure and never cached. -/
theorem c5_counterexample :
    (fetchProblems 0 respMalformed pstate0).errorProblems = none ∧
    (fetchProblems 0 respMalformed pstate0).cache.payload = some (.arr []) ∧
    (fetchProblems 0 respMalformed pstate0).hasFetched = true := by
  refine ⟨rfl, rfl, rfl⟩

/-! ## C6: NotFound rollback -/

/-- C6: when the activity service response carries no `userInfo`,
`setHandleAndFetch` ends in an error, and the final state is rolled back:
no handle, no user info, empty derived state, the persisted handle cleared,
and the raw submission ledger exactly as before the call. -/
theorem c6_notfound_rollback (localDay : Int → Int) (today now : Int)
    (probResp : Nat → AttemptOutcome) (subsOpt : Option (List Submission))
    (h : String) (st : AppState)
    (hv : handleRegexTest (nfkc h) = true) :
    (setHandleAndFetch localDay today now probResp (.ok none subsOpt) h st).2 = .errored ∧
    (setHandleAndFetch localDay today now probResp (.ok none subsOpt) h st).1.handle = none ∧
    (setHandleAndFetch localDay today now probResp (.ok none subsOpt) h st).1.userInfo = none ∧
    (setHandleAndFetch localDay today now probResp (.ok none subsOpt) h st).1.solvedSet = [] ∧
    (setHandleAndFetch localDay today now probResp
        (.ok none subsOpt) h st).1.attemptedUnsolved = [] ∧
    (setHandleAndFetch localDay today now probResp (.ok none subsOpt) h st).1.solvingStreak = 0 ∧
    (setHandleAndFetch localDay today now probResp (.ok none subsOpt) h st).1.dailyCounts = [] ∧
    (setHandleAndFetch localDay today now probResp
        (.ok none subsOpt) h st).1.persistedHandle = none ∧
    (setHandleAndFetch localDay today now probResp
        (.ok none subsOpt) h st).1.rawSubmissions = st.rawSubmissions := by
  simp only [setHandleAndFetch, hv, Bool.not_true, Bool.false_eq_true, if_false,
    fetchAndMergeUserData, clearUser]
  split <;> simp

/-- Witness for C6: a valid handle whose lookup reports no user on a cold
start. -/
theorem c6_notfound_rollback_witness :
    (setHandleAndFetch dayOf 0 0 respFail (.ok none none) "alice" app0).2 = .errored ∧
    (setHandleAndFetch dayOf 0 0 respFail (.ok none none) "alice" app0).1.handle = none ∧
    (setHandleAndFetch dayOf 0 0 respFail (.ok none none) "alice" app0).1.userInfo = none ∧
    (setHandleAndFetch dayOf 0 0 respFail (.ok none none) "alice" app0).1.solvedSet = [] ∧
    (setHandleAndFetch dayOf 0 0 respFail
        (.ok none none) "alice" app0).1.attemptedUnsolved = [] ∧
    (setHandleAndFetch dayOf 0 0 respFail (.ok none none) "alice" app0).1.solvingStreak = 0 ∧
    (setHandleAndFetch dayOf 0 0 respFail (.ok none none) "alice" app0).1.dailyCounts = [] ∧
    (setHandleAndFetch dayOf 0 0 respFail
        (.ok none none) "alice" app0).1.persistedHandle = none ∧
    (setHandleAndFetch dayOf 0 0 respFail
        (.ok none none) "alice" app0).1.rawSubmissions = app0.rawSubmissions :=
  c6_notfound_rollback dayOf 0 0 respFail none "alice" app0 (by decide)

/-! ## C8: handle validation before service calls -/

/-- C8 amended: validation is applied to the NFKC-normalized handle. Any
handle whose normalized form fails the format test is rejected with the
state (and so the service-call counters) unchanged; for handles fixed by
normalization the failure cases are exactly length < 3, length > 24 or a
character outside the class; and a handle containing an ASCII control
character is always rejected, since NFKC preserves it. -/
theorem c8_amended_validation :
    (∀ (localDay : Int → Int) (today now : Int) (probResp : Nat → AttemptOutcome)
        (userResp : UserResp) (h : String) (st : AppState),
        handleRegexTest (nfkc h) = false →
        setHandleAndFetch localDay today now probResp userResp h st = (st, .rejected)) ∧
    (∀ (localDay : Int → Int) (today : Int) (resp : RefreshResp) (h : String) (st : AppState),
        handleRegexTest (nfkc h) = false →
        refreshUserSubmissions localDay today resp h st = st) ∧
    (∀ h : String, nfkc h = h →
        (h.length < 3 ∨ 24 < h.length ∨ h.data.any (fun c => !(isHandleChar c)) = true) →
        handleRegexTest (nfkc h) = false) ∧
    (∀ (h : String) (c : Char), c ∈ h.data → c.toNat < 32 →
        handleRegexTest (nfkc h) = false) := by
  refine ⟨?_, ?_, ?_, ?_⟩
  · intro localDay today now probResp userResp h st hv
    simp [setHandleAndFetch, hv]
  · intro localDay today resp h st hv
    by_cases he : h = ""
    · simp [refreshUserSubmissions, he]
    · simp [refreshUserSubmissions, he, hv]
  · intro h hfix hbad
    rw [hfix, handleRegexTest]
    rcases hbad with hlen | hlen | hchar
    · rw [decide_eq_false (by omega : ¬(3 ≤ h.length ∧ h.length ≤ 24))]
      rw [Bool.false_and]
    · rw [decide_eq_false (by omega : ¬(3 ≤ h.length ∧ h.length ≤ 24))]
      rw [Bool.false_and]
    · obtain ⟨c, hc, hncl⟩ := List.any_eq_true.mp hchar
      have hall : h.data.all isHandleChar = false := by
        cases hall : h.data.all isHandleChar with
        | false => rfl
        | true =>
            have := List.all_eq_true.mp hall c hc
            rw [this] at hncl
            exact absurd hncl (by decide)
      rw [hall, Bool.and_false]
  · intro h c hc hctl
    have hmem : c ∈ (nfkc h).data := by
      show c ∈ (String.mk ((h.data.map nfkcChar).flatten)).data
      simp only [List.mem_flatten]
      refine ⟨nfkcChar c, List.mem_map_of_mem nfkcChar hc, ?_⟩
      rw [nfkcChar]
      rw [if_neg (fun he => by rw [he] at hctl; exact absurd hctl (by decide))]
      rw [if_neg (fun he => by rw [he] at hctl; exact absurd hctl (by decide))]
      rw [if_neg (fun he => by rw [he] at hctl; exact absurd hctl (by decide))]
      exact List.mem_singleton.mpr rfl
    have hncl : isHandleChar c = false := by
      rw [isHandleChar]
      exact decide_eq_false (by omega)
    have hall : (nfkc h).data.all isHandleChar = false := by
      cases hall : (nfkc h).data.all isHandleChar with
      | false => rfl
      | true =>
          have := List.all_eq_true.mp hall c hmem
          rw [hncl] at this
          exact absurd this (by decide)
    rw [handleRegexTest, hall, Bool.and_false]

/-- Witness for the amended C8: the two-character handle `ab` is rejected
by both entry points with the state unchanged; a two-character ASCII handle
and a handle with a control character fail the format test. -/
theorem c8_amended_validation_witness :
    setHandleAndFetch dayOf 0 0 respFail .httpFail "ab" app0 = (app0, .rejected) ∧
    refreshUserSubmissions dayOf 0 .httpFail "ab" app0 = app0 ∧
    handleRegexTest (nfkc "ab") = false ∧
    handleRegexTest (nfkc "a\x01b") = false :=
  ⟨c8_amended_validation.1 dayOf 0 0 respFail .httpFail "ab" app0 (by decide),
   c8_amended_validation.2.1 dayOf 0 .httpFail "ab" app0 (by decide),
   c8_amended_validation.2.2.1 "ab" rfl (Or.inl (by decide)),
   c8_amended_validation.2.2.2 "a\x01b" (Char.ofNat 1) (by decide) (by decide)⟩

/-- C8 counterexample: the handle made of the three superscript digits
contains only characters outside the allowed class, yet NFKC normalization
maps it to `123`, the inline regex accepts it, and both entry points
proceed to make a service call instead of rejecting it. -/
theorem c8_counterexample :
    ("¹²³".data.all (fun c => !(isHandleChar c))) = true ∧
    handleRegexTest (nfkc "¹²³") = true ∧
    (setHandleAndFetch dayOf 0 0 respFail (.ok (some ui0) (some []))
        "¹²³" appWithCatalog).2 = .success ∧
    (setHandleAndFetch dayOf 0 0 respFail (.ok (some ui0) (some []))
        "¹²³" appWithCatalog).1.userCalls = appWithCatalog.userCalls + 1 ∧
    (refreshUserSubmissions dayOf 0 (.ok none) "¹²³" appWithCatalog).userCalls
      = appWithCatalog.userCalls + 1 := by
  refine ⟨by decide, by decide, rfl, rfl, rfl⟩

/-! ## C9: quota-safe storage writes -/

/-- The byte size of a string built from an explicit character list. -/
theorem utf8ByteSize_mk (l : List Char) :
    (String.mk l).utf8ByteSize = String.utf8ByteSize.go l := rfl

/-- One step of the byte-size accumulator. -/
theorem utf8_go_cons (c : Char) (l : List Char) :
    String.utf8ByteSize.go (c :: l) = String.utf8ByteSize.go l + c.utf8Size := rfl

/-- The UTF-8 size of a replicated `a` string is its length. -/
theorem go_replicate (n : Nat) :
    String.utf8ByteSize.go (List.replicate n 'a') = n := by
  induction n with
  | zero => rfl
  | succ m ih =>
      rw [List.replicate_succ, utf8_go_cons, ih]
      rfl

/-- The total size of a one-item store. -/
theorem storeTotal_singleton (k : String) (v : StoredVal) :
    storeTotal [(k, v)] = (k ++ v.text).utf8ByteSize := by
  simp [storeTotal, List.foldl_cons, List.foldl_nil]

/-- The store `stBig` holds 5000001 bytes. -/
theorem storeTotal_stBig : storeTotal stBig.entries = 5000001 := by
  have h1 : stBig.entries = [("k", ⟨repChar 5000000, none⟩)] := rfl
  rw [h1, storeTotal_singleton]
  have h2 : ("k" ++ repChar 5000000)
      = String.mk ('k' :: List.replicate 5000000 'a') := rfl
  rw [h2, utf8ByteSize_mk, utf8_go_cons, go_replicate]
  rfl

/-- C9: `setItem` never throws and is quota-safe. A value above the
per-key size ceiling is refused with the store untouched; when the
cumulative 5MB ceiling would be exceeded, the cleanup pass runs first and
the write is then attempted exactly once on the cleaned store; and when the
underlying store raises the quota-exceeded condition the write is abandoned
with a refused result after a cleanup pass, never an exception. -/
theorem c9_quota_safe_write :
    (∀ (st : RawStore) (k : String) (v : StoredVal) (m : Nat),
        m < v.text.utf8ByteSize → setItem st k v m = (st, false)) ∧
    (∀ (st : RawStore) (k : String) (v : StoredVal),
        k ≠ "" → k.length ≤ 100 → v.text.utf8ByteSize ≤ 500000 →
        5000000 < storeTotal st.entries + v.text.utf8ByteSize →
        setItem st k v 500000 =
          (match rawSet (cleanup st) k v with
           | .ok st2 => (st2, true)
           | .error _ => (cleanup (cleanup st), false))) ∧
    (∀ (st : RawStore) (k : String) (v : StoredVal),
        k ≠ "" → k.length ≤ 100 → v.text.utf8ByteSize ≤ 500000 →
        storeTotal st.entries + v.text.utf8ByteSize ≤ 5000000 →
        rawSet st k v = .error () →
        setItem st k v 500000 = (cleanup st, false)) := by
  refine ⟨?_, ?_, ?_⟩
  · intro st k v m hm
    rw [setItem]
    split
    · rfl
    · rw [if_pos hm]
  · intro st k v hk hklen hsize hover
    rw [setItem]
    rw [if_neg (by push_neg; exact ⟨hk, by omega⟩)]
    rw [if_neg (by omega)]
    dsimp only
    rw [if_pos hover]
  · intro st k v hk hklen hsize hunder herr
    rw [setItem]
    rw [if_neg (by push_neg; exact ⟨hk, by omega⟩)]
    rw [if_neg (by omega)]
    dsimp only
    rw [if_neg (by omega), herr]

/-- Witness for C9: a 3-byte value is refused under a 2-byte ceiling; a
write against a 5000001-byte store trips the pre-emptive cleanup; a write
into a zero-capacity store hits the quota condition and is refused. -/
theorem c9_quota_safe_write_witness :
    (setItem stTiny "a" ⟨"abc", none⟩ 2 = (stTiny, false)) ∧
    (setItem stBig "a" ⟨"b", none⟩ 500000 =
      (match rawSet (cleanup stBig) "a" ⟨"b", none⟩ with
       | .ok st2 => (st2, true)
       | .error _ => (cleanup (cleanup stBig), false))) ∧
    (setItem stTiny "a" ⟨"b", none⟩ 500000 = (cleanup stTiny, false)) := by
  refine ⟨?_, ?_, ?_⟩
  · exact c9_quota_safe_write.1 stTiny "a" ⟨"abc", none⟩ 2 (by decide)
  · refine c9_quota_safe_write.2.1 stBig "a" ⟨"b", none⟩ (by decide) (by decide)
      (by decide) ?_
    rw [storeTotal_stBig]
    decide
  · exact c9_quota_safe_write.2.2 stTiny "a" ⟨"b", none⟩ (by decide) (by decide)
      (by decide) (by decide) (by rfl)

end Solrise
